import Mathlib

/-!
Shallow embedding of the `CalculatorState` arithmetic core of the
Fredulator calculator (`src/main.rs`).

Modelling conventions:
* Rust `f64` values are idealised as exact rationals `ℚ`; the constant
  `f64::EPSILON` becomes the rational `2 ^ 52` reciprocal `EPS`.
* `str::parse::<f64>()` is modelled on the plain decimal-literal fragment
  of its grammar — optional sign, digits, at most one decimal point —
  with the exact rational value.  Exponents, `inf` and `nan` forms are
  outside the fragment the UI can produce and are not modelled.
* `f64::to_string()` is modelled by `ratToString`, the exact decimal
  rendering without trailing zeros, which agrees with Rust's shortest
  round-trip rendering on every terminating decimal the calculator
  produces (the signed zero `-0.0` of `f64` collapses to `0` in `ℚ`).
* Strings are `List Char`; `String::push` is append of one character.
* The `&mut self` methods become functions `CalculatorState → CalculatorState`;
  `calculate`, which also returns a value, yields a pair.
* The GUI button handlers of `main` are embedded as the `Event` step
  function `step` / `run` (digit buttons, the guarded decimal-point
  button, the four operator buttons, AC, plus-minus, percent, equals).
-/

namespace Fredulator

/-- The `Operation` enum of `main.rs`. -/
inductive Operation where
  | Add
  | Subtract
  | Multiply
  | Divide
  | None
deriving DecidableEq

/-- The `CalculatorState` struct of `main.rs`: `current_value: f64`
(as `ℚ`), `buffer: String` (as `List Char`), `current_op: Operation`. -/
structure CalculatorState where
  current_value : ℚ
  buffer : List Char
  current_op : Operation
deriving DecidableEq

/-- Machine epsilon of `f64` (`f64::EPSILON = 2⁻⁵²`) as a rational. -/
def EPS : ℚ := 1 / 2 ^ 52

/-- Numeric value of a digit character. -/
def digitVal (c : Char) : ℕ := c.toNat - 48

/-- Value of a most-significant-first digit string. -/
def natOfDigits (l : List Char) : ℕ :=
  l.foldl (fun acc c => 10 * acc + digitVal c) 0

/-- Unsigned part of the `f64` decimal-literal grammar: digits, then
optionally a decimal point and further digits; at least one digit
overall.  Returns the exact rational value. -/
def parseUnsigned (l : List Char) : Option ℚ :=
  let p := l.span Char.isDigit
  match p.2 with
  | [] => if p.1.isEmpty then none else some (natOfDigits p.1 : ℚ)
  | '.' :: frac =>
    if (p.1.isEmpty && frac.isEmpty) || !frac.all Char.isDigit then none
    else some ((natOfDigits p.1 : ℚ) + (natOfDigits frac : ℚ) / 10 ^ frac.length)
  | _ => none

/-- Model of `str::parse::<f64>` on the decimal-literal fragment:
optional leading sign, then `parseUnsigned`. -/
def parseRat : List Char → Option ℚ
  | '-' :: rest => (parseUnsigned rest).map Neg.neg
  | '+' :: rest => parseUnsigned rest
  | l => parseUnsigned l

/-- Model of `buffer.parse().unwrap_or(0.0)`. -/
def parseOr0 (l : List Char) : ℚ := (parseRat l).getD 0

/-- Decimal digits of `n`, least significant first, by repeated division;
the fuel argument only forces termination and `n` itself is enough. -/
def digitsRevFuel : ℕ → ℕ → List Char
  | 0, _ => []
  | fuel + 1, n => if n = 0 then [] else Nat.digitChar (n % 10) :: digitsRevFuel fuel (n / 10)

/-- Decimal rendering of a natural number. -/
def natToDigitList (n : ℕ) : List Char :=
  if n = 0 then ['0'] else (digitsRevFuel n n).reverse

/-- `k`-digit zero-padded decimal rendering of `m` (for `m < 10 ^ k`). -/
def padDigits : ℕ → ℕ → List Char
  | 0, _ => []
  | k + 1, m => padDigits k (m / 10) ++ [Nat.digitChar (m % 10)]

/-- Multiplicity of the factor `p` in `n`, fuel-bounded. -/
def countFactor : ℕ → ℕ → ℕ → ℕ
  | 0, _, _ => 0
  | fuel + 1, p, n =>
    if 2 ≤ p ∧ n ≠ 0 ∧ n % p = 0 then countFactor fuel p (n / p) + 1 else 0

/-- Least `k` with `d ∣ 10 ^ k`, for `d` a product of twos and fives. -/
def decExponent (d : ℕ) : ℕ := max (countFactor d 2 d) (countFactor d 5 d)

/-- Model of `f64::to_string` for the terminating decimals the
calculator produces: sign, integer digits, and — when the denominator
is not `1` — a decimal point followed by exactly the needed fraction
digits (no trailing zeros). -/
def ratToString (q : ℚ) : List Char :=
  let k := decExponent q.den
  let n := q.num.natAbs * 10 ^ k / q.den
  let sign : List Char := if q.num < 0 then ['-'] else []
  if k = 0 then sign ++ natToDigitList n
  else sign ++ natToDigitList (n / 10 ^ k) ++ ['.'] ++ padDigits k (n % 10 ^ k)

/-- `CalculatorState::new`. -/
def CalculatorState.new : CalculatorState :=
  { current_value := 0, buffer := [], current_op := Operation.None }

/-- `CalculatorState::clear`. -/
def CalculatorState.clear (s : CalculatorState) : CalculatorState :=
  { s with current_value := 0, buffer := [], current_op := Operation.None }

/-- `CalculatorState::set_operation`. -/
def CalculatorState.set_operation (s : CalculatorState) (op : Operation) : CalculatorState :=
  if s.buffer.isEmpty then { s with current_op := op }
  else { current_value := parseOr0 s.buffer, buffer := [], current_op := op }

/-- `CalculatorState::input_digit`: pushes the character onto the buffer. -/
def CalculatorState.input_digit (s : CalculatorState) (digit : Char) : CalculatorState :=
  { s with buffer := s.buffer ++ [digit] }

/-- The `new_val` local of `CalculatorState::calculate`: `0.0` when the
buffer is empty, else the parsed buffer with `0.0` fallback. -/
def CalculatorState.operand (s : CalculatorState) : ℚ :=
  if s.buffer.isEmpty then 0 else parseOr0 s.buffer

/-- `CalculatorState::calculate`: returns the computed value together
with the successor state. -/
def CalculatorState.calculate (s : CalculatorState) : ℚ × CalculatorState :=
  let new_val := s.operand
  let result :=
    match s.current_op with
    | Operation.Add => s.current_value + new_val
    | Operation.Subtract => s.current_value - new_val
    | Operation.Multiply => s.current_value * new_val
    | Operation.Divide =>
      if |new_val| < EPS then 0 else s.current_value / new_val
    | Operation.None => new_val
  (result, { current_value := result, buffer := [], current_op := Operation.None })

/-- `CalculatorState::toggle_sign`. -/
def CalculatorState.toggle_sign (s : CalculatorState) : CalculatorState :=
  if s.buffer.isEmpty then { s with current_value := -s.current_value }
  else
    match parseRat s.buffer with
    | some val => { s with buffer := ratToString (-val) }
    | none => s

/-- `CalculatorState::percent`. -/
def CalculatorState.percent (s : CalculatorState) : CalculatorState :=
  if s.buffer.isEmpty then { s with current_value := s.current_value / 100 }
  else
    match parseRat s.buffer with
    | some val => { s with buffer := ratToString (val / 100) }
    | none => s

/-- The button events of `main`: AC, plus-minus, percent, the four
operator buttons, the digit buttons, the decimal-point button, and
equals. -/
inductive Event where
  | clearBtn
  | toggleBtn
  | percentBtn
  | opBtn (op : Operation)
  | digitBtn (c : Char)
  | decimalBtn
  | equalsBtn
deriving DecidableEq

/-- One button press, exactly as wired in `main`: the decimal button
guards against a second decimal point before calling `input_digit`. -/
def step (s : CalculatorState) : Event → CalculatorState
  | Event.clearBtn => s.clear
  | Event.toggleBtn => s.toggle_sign
  | Event.percentBtn => s.percent
  | Event.opBtn op => s.set_operation op
  | Event.digitBtn c => s.input_digit c
  | Event.decimalBtn => if '.' ∈ s.buffer then s else s.input_digit '.'
  | Event.equalsBtn => (s.calculate).2

/-- State after a sequence of button presses from application start. -/
def run (es : List Event) : CalculatorState := es.foldl step CalculatorState.new

/-- `main` only ever passes digit characters to the digit buttons and a
real operator (never `Operation.None`) to the operator buttons. -/
def goodEvent : Event → Bool
  | Event.digitBtn c => c.isDigit
  | Event.opBtn Operation.None => false
  | _ => true

/-- An event sequence the GUI of `main` can emit. -/
def goodEvents (es : List Event) : Bool := es.all goodEvent

/-- Tracks across one event whether the pending operator is `None`:
clear and equals force `None`, an operator button forces non-`None`,
everything else preserves the previous answer. -/
def trackStep (b : Bool) : Event → Bool
  | Event.clearBtn => true
  | Event.equalsBtn => true
  | Event.opBtn _ => false
  | _ => b

/-- Whether, after `es`, no operator button has been pressed since the
last clear/equals (or since start). -/
def opNoneTrack (es : List Event) : Bool := es.foldl trackStep true

/-- Modelled from the spec's §4.1 result table for `calculate()`:
the second operand is `0.0` on an empty buffer and the parsed buffer
value otherwise, and the pending operator is applied against
`(accumulator, operand)`, with the near-zero divide rule. -/
def specResult (s : CalculatorState) : ℚ :=
  match s.current_op with
  | Operation.Add => s.current_value + s.operand
  | Operation.Subtract => s.current_value - s.operand
  | Operation.Multiply => s.current_value * s.operand
  | Operation.Divide =>
    if |s.operand| < EPS then 0 else s.current_value / s.operand
  | Operation.None => s.operand

/-! ### Basic lemmas about the operations -/

/-- `set_operation` always leaves the buffer empty: it either was empty
already or is cleared. -/
theorem set_operation_buffer : ∀ (s : CalculatorState) (op : Operation),
    (s.set_operation op).buffer = [] := by
  rintro ⟨v, b, o⟩ op
  cases b <;> rfl

/-- On an empty buffer, `set_operation` only records the operator. -/
theorem set_operation_of_empty : ∀ (s : CalculatorState), s.buffer = [] →
    ∀ op : Operation, s.set_operation op = { s with current_op := op } := by
  rintro ⟨v, b, o⟩ h op
  simp only at h
  subst h
  rfl

/-- `set_operation` records exactly the given operator. -/
theorem set_operation_current_op : ∀ (s : CalculatorState) (op : Operation),
    (s.set_operation op).current_op = op := by
  rintro ⟨v, b, o⟩ op
  cases b <;> rfl

/-- `toggle_sign` never changes the pending operator. -/
theorem toggle_sign_current_op (s : CalculatorState) :
    s.toggle_sign.current_op = s.current_op := by
  rcases s with ⟨v, b, o⟩
  cases b with
  | nil => rfl
  | cons c cs => cases hp : parseRat (c :: cs) <;>
      simp [CalculatorState.toggle_sign, hp]

/-- `percent` never changes the pending operator. -/
theorem percent_current_op (s : CalculatorState) :
    s.percent.current_op = s.current_op := by
  rcases s with ⟨v, b, o⟩
  cases b with
  | nil => rfl
  | cons c cs => cases hp : parseRat (c :: cs) <;>
      simp [CalculatorState.percent, hp]

/-- On a non-empty buffer, `toggle_sign` leaves the accumulator alone. -/
theorem toggle_sign_current_value (s : CalculatorState) (h : s.buffer ≠ []) :
    s.toggle_sign.current_value = s.current_value := by
  rcases s with ⟨v, b, o⟩
  cases b with
  | nil => exact absurd rfl h
  | cons c cs => cases hp : parseRat (c :: cs) <;>
      simp [CalculatorState.toggle_sign, hp]

/-- On a non-empty buffer, `percent` leaves the accumulator alone. -/
theorem percent_current_value (s : CalculatorState) (h : s.buffer ≠ []) :
    s.percent.current_value = s.current_value := by
  rcases s with ⟨v, b, o⟩
  cases b with
  | nil => exact absurd rfl h
  | cons c cs => cases hp : parseRat (c :: cs) <;>
      simp [CalculatorState.percent, hp]

/-! ### The rendering function produces at most one decimal point -/

/-- Decimal digit characters are never the decimal point. -/
theorem digitChar_mod_ne_dot (n : ℕ) : Nat.digitChar (n % 10) ≠ '.' := by
  have h : n % 10 < 10 := Nat.mod_lt _ (by norm_num)
  have hall : ∀ m : Fin 10, Nat.digitChar m.val ≠ '.' := by decide
  exact hall ⟨n % 10, h⟩

/-- The raw digit expansion contains no decimal point. -/
theorem dot_not_mem_digitsRevFuel (fuel : ℕ) : ∀ n : ℕ, '.' ∉ digitsRevFuel fuel n := by
  induction fuel with
  | zero => intro n; simp [digitsRevFuel]
  | succ fuel ih =>
    intro n
    simp only [digitsRevFuel]
    split
    · simp
    · intro hmem
      rcases List.mem_cons.mp hmem with h | h
      · exact digitChar_mod_ne_dot n h.symm
      · exact ih _ h

/-- Rendered natural numbers contain no decimal point. -/
theorem dot_not_mem_natToDigitList (n : ℕ) : '.' ∉ natToDigitList n := by
  unfold natToDigitList
  split
  · decide
  · exact fun h => dot_not_mem_digitsRevFuel _ _ (List.mem_reverse.mp h)

/-- Zero-padded digit blocks contain no decimal point. -/
theorem dot_not_mem_padDigits (k : ℕ) : ∀ m : ℕ, '.' ∉ padDigits k m := by
  induction k with
  | zero => intro m; simp [padDigits]
  | succ k ih =>
    intro m hmem
    rcases List.mem_append.mp hmem with h | h
    · exact ih _ h
    · exact digitChar_mod_ne_dot m (List.mem_singleton.mp h).symm

/-- The decimal rendering of a rational contains at most one decimal
point. -/
theorem count_dot_ratToString (q : ℚ) : (ratToString q).count '.' ≤ 1 := by
  have h1 : ∀ n : ℕ, (natToDigitList n).count '.' = 0 :=
    fun n => List.count_eq_zero.mpr (dot_not_mem_natToDigitList n)
  have h2 : ∀ k m : ℕ, (padDigits k m).count '.' = 0 :=
    fun k m => List.count_eq_zero.mpr (dot_not_mem_padDigits k m)
  simp only [ratToString]
  split <;> split <;>
    simp [List.count_append, List.count_cons, List.count_nil, h1, h2]

/-! ### The UI event machine -/

/-- A digit character is not the decimal point. -/
theorem isDigit_ne_dot (c : Char) (h : c.isDigit = true) : c ≠ '.' := by
  intro hc
  subst hc
  exact absurd h (by decide)

/-- One good button press preserves "at most one decimal point in the
buffer". -/
theorem step_count_dot (s : CalculatorState) (e : Event) (hg : goodEvent e = true)
    (h : s.buffer.count '.' ≤ 1) : (step s e).buffer.count '.' ≤ 1 := by
  cases e with
  | clearBtn => simp [step, CalculatorState.clear]
  | toggleBtn =>
    rcases s with ⟨v, b, o⟩
    cases b with
    | nil => exact h
    | cons c cs =>
      cases hp : parseRat (c :: cs) with
      | none => simpa [step, CalculatorState.toggle_sign, hp] using h
      | some w =>
        simp [step, CalculatorState.toggle_sign, hp]
        exact count_dot_ratToString (-w)
  | percentBtn =>
    rcases s with ⟨v, b, o⟩
    cases b with
    | nil => exact h
    | cons c cs =>
      cases hp : parseRat (c :: cs) with
      | none => simpa [step, CalculatorState.percent, hp] using h
      | some w =>
        simp [step, CalculatorState.percent, hp]
        exact count_dot_ratToString (w / 100)
  | opBtn op => simp [step, set_operation_buffer]
  | digitBtn c =>
    have hc : ('.' : Char) ∉ [c] := by
      intro hmem
      exact isDigit_ne_dot c hg (List.mem_singleton.mp hmem).symm
    simp only [step, CalculatorState.input_digit, List.count_append]
    rw [List.count_eq_zero.mpr hc]
    simpa using h
  | decimalBtn =>
    simp only [step]
    split
    · exact h
    · rename_i hmem
      simp only [CalculatorState.input_digit, List.count_append]
      rw [List.count_eq_zero.mpr hmem]
      simp
  | equalsBtn => simp [step, CalculatorState.calculate]

/-- Across any good event sequence, the buffer keeps at most one
decimal point. -/
theorem foldl_count_dot (es : List Event) : ∀ s : CalculatorState,
    goodEvents es = true → s.buffer.count '.' ≤ 1 →
    ((es.foldl step s).buffer.count '.' ≤ 1) := by
  induction es with
  | nil => intro s _ h; exact h
  | cons e es ih =>
    intro s hg h
    rw [List.foldl_cons]
    have hg1 : goodEvent e = true := by
      have := List.all_eq_true.mp hg e (List.mem_cons_self e es)
      exact this
    have hg2 : goodEvents es = true := by
      apply List.all_eq_true.mpr
      intro x hx
      exact List.all_eq_true.mp hg x (List.mem_cons_of_mem e hx)
    exact ih (step s e) hg2 (step_count_dot s e hg1 h)

/-- One button press updates the "no operator pressed since the last
reset" tracking bit exactly as `trackStep` says. -/
theorem step_trackStep (s : CalculatorState) (e : Event) (hg : goodEvent e = true) :
    decide ((step s e).current_op = Operation.None) =
      trackStep (decide (s.current_op = Operation.None)) e := by
  cases e with
  | clearBtn => simp [step, CalculatorState.clear, trackStep]
  | equalsBtn => simp [step, CalculatorState.calculate, trackStep]
  | opBtn op =>
    have hop : op ≠ Operation.None := by
      intro hc
      subst hc
      exact absurd hg (by decide)
    simp [step, set_operation_current_op, trackStep, hop]
  | digitBtn c => simp [step, CalculatorState.input_digit, trackStep]
  | toggleBtn => simp [step, toggle_sign_current_op, trackStep]
  | percentBtn => simp [step, percent_current_op, trackStep]
  | decimalBtn =>
    have hpres : (step s Event.decimalBtn).current_op = s.current_op := by
      simp only [step]
      split
      · rfl
      · rfl
    simp [hpres, trackStep]

/-- Across a good event sequence, the pending operator is `None` exactly
when the tracking fold says so. -/
theorem foldl_opNone (es : List Event) : ∀ s : CalculatorState,
    goodEvents es = true →
    (((es.foldl step s).current_op = Operation.None) ↔
      (es.foldl trackStep (decide (s.current_op = Operation.None)) = true)) := by
  induction es with
  | nil =>
    intro s _
    simp [List.foldl_nil]
  | cons e es ih =>
    intro s hg
    have hg1 : goodEvent e = true :=
      List.all_eq_true.mp hg e (List.mem_cons_self e es)
    have hg2 : goodEvents es = true := by
      apply List.all_eq_true.mpr
      intro x hx
      exact List.all_eq_true.mp hg x (List.mem_cons_of_mem e hx)
    rw [List.foldl_cons, List.foldl_cons, ← step_trackStep s e hg1]
    exact ih (step s e) hg2

/-- Typing characters one by one only appends them to the buffer. -/
theorem foldl_input_digit (cs : List Char) : ∀ s : CalculatorState,
    cs.foldl CalculatorState.input_digit s = { s with buffer := s.buffer ++ cs } := by
  induction cs with
  | nil => intro s; simp
  | cons c cs ih =>
    intro s
    rw [List.foldl_cons, ih]
    simp [CalculatorState.input_digit]

/-! ### The claims -/

/-- Claim C1: `calculate()` takes the second operand from the buffer
(`0.0` when empty, parsed value with `0.0` fallback otherwise), applies
the pending operator per the §4.1 table (with the near-zero divide
rule), stores the result in the accumulator, clears the buffer, resets
the pending operator to `None`, and returns the new accumulator; in
particular accumulator 6, pending `Multiply`, buffer "7" yields 42. -/
theorem calculate_matches_table :
    (∀ s : CalculatorState, s.calculate =
      (specResult s,
        { current_value := specResult s, buffer := [], current_op := Operation.None })) ∧
    (CalculatorState.calculate ⟨6, ['7'], Operation.Multiply⟩).1 = 42 := by
  constructor
  · rintro ⟨v, b, o⟩
    cases o <;> rfl
  · with_unfolding_all rfl

/-- Claim C2: with pending operator `Divide` and a second operand of
absolute value below machine epsilon, `calculate()` returns `0.0` and
stores `0.0`, raising no error; in particular accumulator 10, pending
`Divide`, buffer "0" yields `0.0`. -/
theorem calculate_divide_near_zero :
    (∀ s : CalculatorState, s.current_op = Operation.Divide → |s.operand| < EPS →
      s.calculate = (0, { current_value := 0, buffer := [], current_op := Operation.None })) ∧
    CalculatorState.calculate ⟨10, ['0'], Operation.Divide⟩ =
      (0, { current_value := 0, buffer := [], current_op := Operation.None }) := by
  constructor
  · rintro ⟨v, b, o⟩ h1 h2
    simp only at h1
    subst h1
    simp [CalculatorState.calculate, h2]
  · with_unfolding_all rfl

/-- Witness for C2 at accumulator 10, pending `Divide`, buffer "0". -/
theorem calculate_divide_near_zero_witness :
    ((⟨10, ['0'], Operation.Divide⟩ : CalculatorState).current_op = Operation.Divide ∧
      |(⟨10, ['0'], Operation.Divide⟩ : CalculatorState).operand| < EPS) ∧
    CalculatorState.calculate ⟨10, ['0'], Operation.Divide⟩ =
      (0, { current_value := 0, buffer := [], current_op := Operation.None }) := by
  have h2 : |(⟨10, ['0'], Operation.Divide⟩ : CalculatorState).operand| < EPS :=
    of_decide_eq_true (by with_unfolding_all rfl)
  exact ⟨⟨rfl, h2⟩, calculate_divide_near_zero.1 _ rfl h2⟩

/-- Claim C3: `set_operation(op)` commits a non-empty buffer into the
accumulator (parse failure giving `0.0`) and clears it, leaves the
accumulator alone on an empty buffer, and records `op`, discarding the
previously pending operator; two consecutive calls with no intervening
digit input keep the accumulator and retain only the second operator. -/
theorem set_operation_spec :
    (∀ (s : CalculatorState) (op : Operation), s.set_operation op =
      if s.buffer.isEmpty then { s with current_op := op }
      else { current_value := parseOr0 s.buffer, buffer := [], current_op := op }) ∧
    (∀ (s : CalculatorState) (op₁ op₂ : Operation),
      (s.set_operation op₁).set_operation op₂ =
        { s.set_operation op₁ with current_op := op₂ }) ∧
    (∀ s : CalculatorState, s.buffer = [] → ∀ op₁ op₂ : Operation,
      (s.set_operation op₁).set_operation op₂ = { s with current_op := op₂ }) := by
  refine ⟨fun s op => rfl, ?_, ?_⟩
  · intro s op₁ op₂
    exact set_operation_of_empty _ (set_operation_buffer s op₁) op₂
  · intro s h op₁ op₂
    rw [set_operation_of_empty s h op₁]
    exact set_operation_of_empty _ h op₂

/-- Witness for C3: two operator presses in a row starting from an
empty buffer keep the accumulator 5 and retain only `Multiply`. -/
theorem set_operation_spec_witness :
    (⟨5, [], Operation.None⟩ : CalculatorState).buffer = [] ∧
    ((⟨5, [], Operation.None⟩ : CalculatorState).set_operation Operation.Add).set_operation
        Operation.Multiply = ⟨5, [], Operation.Multiply⟩ :=
  ⟨rfl, set_operation_spec.2.2 _ rfl Operation.Add Operation.Multiply⟩

/-- Claim C4: typing any character sequence from the initial state with
no operator ever set and then pressing `calculate()` returns the parsed
value of the typed characters (`0.0` when nothing parses) and leaves
the buffer empty. -/
theorem digits_then_calculate : ∀ cs : List Char,
    ((cs.foldl CalculatorState.input_digit CalculatorState.new).calculate).1 = parseOr0 cs ∧
    ((cs.foldl CalculatorState.input_digit CalculatorState.new).calculate).2.buffer = [] := by
  intro cs
  rw [foldl_input_digit]
  cases cs with
  | nil => exact ⟨rfl, rfl⟩
  | cons c cs' => exact ⟨rfl, rfl⟩

/-- Claim C5: `clear()` always restores the initial state
(accumulator 0, empty buffer, pending operator `None`). -/
theorem clear_resets : ∀ s : CalculatorState, s.clear = CalculatorState.new :=
  fun _ => rfl

/-- Claim C6: `toggle_sign()` on a parsable non-empty buffer replaces
it with the rendered negated value, leaves an unparsable buffer
unchanged, and on an empty buffer negates the accumulator; buffer "5"
becomes "-5" and accumulator 3 becomes -3. -/
theorem toggle_sign_spec :
    (∀ (s : CalculatorState) (v : ℚ), parseRat s.buffer = some v → s.buffer ≠ [] →
      s.toggle_sign = { s with buffer := ratToString (-v) }) ∧
    (∀ s : CalculatorState, s.buffer ≠ [] → parseRat s.buffer = none → s.toggle_sign = s) ∧
    (∀ s : CalculatorState, s.buffer = [] →
      s.toggle_sign = { s with current_value := -s.current_value }) ∧
    (⟨0, ['5'], Operation.None⟩ : CalculatorState).toggle_sign.buffer = ['-', '5'] ∧
    (⟨3, [], Operation.None⟩ : CalculatorState).toggle_sign.current_value = -3 := by
  refine ⟨?_, ?_, ?_, ?_, ?_⟩
  · rintro ⟨v, b, o⟩ w hp hne
    cases b with
    | nil => exact absurd rfl hne
    | cons c cs =>
      simp only at hp
      simp [CalculatorState.toggle_sign, hp]
  · rintro ⟨v, b, o⟩ hne hp
    cases b with
    | nil => exact absurd rfl hne
    | cons c cs =>
      simp only at hp
      simp [CalculatorState.toggle_sign, hp]
  · rintro ⟨v, b, o⟩ h
    simp only at h
    subst h
    rfl
  · with_unfolding_all rfl
  · with_unfolding_all rfl

/-- Witness for C6 at accumulator 7, buffer "5": the buffer becomes
"-5" and nothing else changes. -/
theorem toggle_sign_spec_witness :
    (parseRat (⟨7, ['5'], Operation.None⟩ : CalculatorState).buffer = some 5 ∧
      (⟨7, ['5'], Operation.None⟩ : CalculatorState).buffer ≠ []) ∧
    (⟨7, ['5'], Operation.None⟩ : CalculatorState).toggle_sign =
      ⟨7, ['-', '5'], Operation.None⟩ := by
  have hp : parseRat (⟨7, ['5'], Operation.None⟩ : CalculatorState).buffer = some 5 := by
    with_unfolding_all rfl
  have hne : (⟨7, ['5'], Operation.None⟩ : CalculatorState).buffer ≠ [] := by decide
  refine ⟨⟨hp, hne⟩, ?_⟩
  rw [toggle_sign_spec.1 _ 5 hp hne]
  with_unfolding_all rfl

/-- Claim C7: `percent()` on a parsable non-empty buffer replaces it
with the rendered value divided by 100, leaves an unparsable buffer
unchanged, and on an empty buffer divides the accumulator by 100;
buffer "50" becomes "0.5" and accumulator 200 becomes 2. -/
theorem percent_spec :
    (∀ (s : CalculatorState) (v : ℚ), parseRat s.buffer = some v → s.buffer ≠ [] →
      s.percent = { s with buffer := ratToString (v / 100) }) ∧
    (∀ s : CalculatorState, s.buffer ≠ [] → parseRat s.buffer = none → s.percent = s) ∧
    (∀ s : CalculatorState, s.buffer = [] →
      s.percent = { s with current_value := s.current_value / 100 }) ∧
    (⟨0, ['5', '0'], Operation.None⟩ : CalculatorState).percent.buffer = ['0', '.', '5'] ∧
    (⟨200, [], Operation.None⟩ : CalculatorState).percent.current_value = 2 := by
  refine ⟨?_, ?_, ?_, ?_, ?_⟩
  · rintro ⟨v, b, o⟩ w hp hne
    cases b with
    | nil => exact absurd rfl hne
    | cons c cs =>
      simp only at hp
      simp [CalculatorState.percent, hp]
  · rintro ⟨v, b, o⟩ hne hp
    cases b with
    | nil => exact absurd rfl hne
    | cons c cs =>
      simp only at hp
      simp [CalculatorState.percent, hp]
  · rintro ⟨v, b, o⟩ h
    simp only at h
    subst h
    rfl
  · with_unfolding_all rfl
  · with_unfolding_all rfl

/-- Witness for C7 at accumulator 7, buffer "50": the buffer becomes
"0.5" and nothing else changes. -/
theorem percent_spec_witness :
    (parseRat (⟨7, ['5', '0'], Operation.None⟩ : CalculatorState).buffer = some 50 ∧
      (⟨7, ['5', '0'], Operation.None⟩ : CalculatorState).buffer ≠ []) ∧
    (⟨7, ['5', '0'], Operation.None⟩ : CalculatorState).percent =
      ⟨7, ['0', '.', '5'], Operation.None⟩ := by
  have hp : parseRat (⟨7, ['5', '0'], Operation.None⟩ : CalculatorState).buffer = some 50 := by
    with_unfolding_all rfl
  have hne : (⟨7, ['5', '0'], Operation.None⟩ : CalculatorState).buffer ≠ [] := by decide
  refine ⟨⟨hp, hne⟩, ?_⟩
  rw [percent_spec.1 _ 50 hp hne]
  with_unfolding_all rfl

/-- Counterexample to C8 as stated: `input_digit` appends
unconditionally, so pressing the raw `input_digit '.'` twice from the
initial state yields a buffer with two decimal points. -/
theorem input_digit_breaks_dot_invariant :
    ¬ (((CalculatorState.new.input_digit '.').input_digit '.').buffer.count '.' ≤ 1) := by
  decide

/-- Amended C8: in every state reachable through the GUI handlers of
`main` (digit buttons with digit characters, the decimal button that
appends '.' only when absent, plus the other buttons), the buffer
contains at most one decimal point. -/
theorem ui_buffer_at_most_one_dot : ∀ es : List Event, goodEvents es = true →
    (run es).buffer.count '.' ≤ 1 := by
  intro es h
  exact foldl_count_dot es CalculatorState.new h (by decide)

/-- Witness for the amended C8 on the presses "1", ".", "5", ".". -/
theorem ui_buffer_at_most_one_dot_witness :
    goodEvents [Event.digitBtn '1', Event.decimalBtn, Event.digitBtn '5',
      Event.decimalBtn] = true ∧
    (run [Event.digitBtn '1', Event.decimalBtn, Event.digitBtn '5',
      Event.decimalBtn]).buffer.count '.' ≤ 1 :=
  ⟨by decide, ui_buffer_at_most_one_dot _ (by decide)⟩

/-- Counterexample to C9 as stated: after the single button press "5"
the pending operator is `None`, yet the sequence is non-empty and ends
in neither a clear nor a compute. -/
theorem opNone_after_digit_press :
    (run [Event.digitBtn '5']).current_op = Operation.None ∧
    [Event.digitBtn '5'] ≠ ([] : List Event) ∧
    [Event.digitBtn '5'].getLast? ≠ some Event.clearBtn ∧
    [Event.digitBtn '5'].getLast? ≠ some Event.equalsBtn := by
  refine ⟨rfl, by decide, by decide, by decide⟩

/-- Amended C9: across GUI event sequences, the pending operator is
`None` exactly when no operator button has been pressed since the last
clear/compute (or since start); initialization, `clear()` and
`calculate()` are the only ways it becomes `None`. -/
theorem ui_opNone_iff_no_operator_since_reset : ∀ es : List Event, goodEvents es = true →
    ((run es).current_op = Operation.None ↔ opNoneTrack es = true) := by
  intro es h
  have hstart : decide (CalculatorState.new.current_op = Operation.None) = true := rfl
  have hmain := foldl_opNone es CalculatorState.new h
  rw [hstart] at hmain
  exact hmain

/-- Witness for the amended C9 on the presses "+", "=": the compute
resets the pending operator to `None`. -/
theorem ui_opNone_iff_witness :
    goodEvents [Event.opBtn Operation.Add, Event.equalsBtn] = true ∧
    (run [Event.opBtn Operation.Add, Event.equalsBtn]).current_op = Operation.None :=
  ⟨by decide, (ui_opNone_iff_no_operator_since_reset _ (by decide)).mpr (by decide)⟩

/-- Claim C10: `input_digit` touches only the buffer; `toggle_sign` and
`percent` never touch the pending operator, and on a non-empty buffer
they also leave the accumulator unchanged. -/
theorem frame_effects :
    (∀ (s : CalculatorState) (c : Char),
      (s.input_digit c).current_value = s.current_value ∧
      (s.input_digit c).current_op = s.current_op) ∧
    (∀ s : CalculatorState,
      s.toggle_sign.current_op = s.current_op ∧ s.percent.current_op = s.current_op) ∧
    (∀ s : CalculatorState, s.buffer ≠ [] →
      s.toggle_sign.current_value = s.current_value ∧
      s.percent.current_value = s.current_value) := by
  refine ⟨fun s c => ⟨rfl, rfl⟩,
    fun s => ⟨toggle_sign_current_op s, percent_current_op s⟩, ?_⟩
  intro s h
  exact ⟨toggle_sign_current_value s h, percent_current_value s h⟩

/-- Witness for C10 at accumulator 1, buffer "5", pending `Add`. -/
theorem frame_effects_witness :
    (⟨1, ['5'], Operation.Add⟩ : CalculatorState).buffer ≠ [] ∧
    ((⟨1, ['5'], Operation.Add⟩ : CalculatorState).toggle_sign.current_value =
        (⟨1, ['5'], Operation.Add⟩ : CalculatorState).current_value ∧
      (⟨1, ['5'], Operation.Add⟩ : CalculatorState).percent.current_value =
        (⟨1, ['5'], Operation.Add⟩ : CalculatorState).current_value) :=
  ⟨by decide, frame_effects.2.2 _ (by decide)⟩

end Fredulator
